import Mathlib

/-!
Shallow embedding of the `scorecard` caddie recommendation engine
(`backend/app/caddie/*`, `backend/app/services/weather.py`) and proofs of the
specification claims about it.

Conventions of the embedding:
* Python floats are modelled as exact rationals (`ℚ`); the arithmetic the
  claims are about is exact decimal arithmetic, so no rounding error model is
  needed.
* Python's builtin `round` (round-half-to-even) is modelled by `pyRound`.
* Python dicts used as finite maps are modelled either as association lists
  (when iteration order matters) or as functions into `Option` (the session
  store).
* Human-facing description strings that only interpolate already-formatted
  text are kept; description strings that use float `format` specifiers
  (`:.0f`) carry no semantic content relevant to any claim and are omitted
  from the embedded `ShotAdjustment`/wind records.
-/

set_option maxHeartbeats 1000000
set_option maxRecDepth 4000
set_option linter.unusedVariables false

/-- Python's builtin `round` on an exact rational: round half to even. -/
def pyRound (q : ℚ) : ℤ :=
  let f : ℤ := ⌊q⌋
  let r : ℚ := q - f
  if r < 1/2 then f
  else if 1/2 < r then f + 1
  else if f % 2 = 0 then f else f + 1

/-- Python's `round(x, 1)`: round to one decimal digit, half to even. -/
def pyRound1 (q : ℚ) : ℚ :=
  (pyRound (q * 10) : ℚ) / 10

/-- Python's `handicap or 15.0`: both `None` and `0.0` are falsy. -/
def pyOr15 (h : Option ℚ) : ℚ :=
  match h with
  | none => 15
  | some x => if x = 0 then 15 else x

/-! ### Data model (`backend/app/caddie/types.py`) -/

/-- `Hazard` (types.py): the fields the engine reads; `lat`/`lng` are unused
display data and omitted. -/
structure Hazard where
  type : String
  side : String
  distance_from_green : ℚ
  penalty_severity : String
deriving Repr, DecidableEq

/-- `HoleIntelligence` (types.py): fields the claims exercise.  Display-only
fields (`green_slope`, `pin_traffic_light`, `player_history`, …) are omitted. -/
structure HoleIntelligence where
  hole_number : ℤ
  par : ℤ
  yards : ℤ
  elevation_change_ft : ℚ
  hazards : List Hazard
deriving Repr, DecidableEq

/-- `ScoringDistribution` (types.py). -/
structure ScoringDistribution where
  eagles : ℚ
  birdies : ℚ
  pars : ℚ
  bogeys : ℚ
  doubles : ℚ
  triples_plus : ℚ
deriving Repr, DecidableEq

/-- `ParAverages` (types.py). -/
structure ParAverages where
  par3 : ℚ
  par4 : ℚ
  par5 : ℚ
deriving Repr, DecidableEq

/-- `PlayerTendencies` (types.py). -/
structure PlayerTendencies where
  miss_direction : String
  miss_short_pct : ℚ
  miss_long_pct : ℚ
  three_putts_per_round : ℚ
  doubles_per_round : ℚ
  par5_bogey_rate : ℚ
  scoring_zone_bogey_rate : ℚ
deriving Repr, DecidableEq

/-- `PlayerStatistics` (types.py); the unused `strokes_gained` block is
omitted. -/
structure PlayerStatistics where
  handicap : Option ℚ
  rounds_analyzed : ℤ
  scoring_distribution : ScoringDistribution
  par_averages : ParAverages
  tendencies : PlayerTendencies
deriving Repr, DecidableEq

/-- `MissSide` (types.py). -/
structure MissSide where
  preferred : String
  description : String
  avoid : String
deriving Repr, DecidableEq

/-- `AimPoint` (types.py): only the description is computed by the engine. -/
structure AimPoint where
  description : String
deriving Repr, DecidableEq

/-- `ShotAdjustment` (types.py): typed yardage delta.  The human-readable
`description` (float-formatted) is omitted. -/
structure ShotAdjustment where
  type : String
  yards : ℤ
deriving Repr, DecidableEq

/-- `WeatherConditions` (types.py). -/
structure WeatherConditions where
  temperature_f : ℚ
  humidity : ℚ
  wind_speed_mph : ℚ
  wind_direction : ℚ
  altitude_ft : ℚ
  conditions : String
deriving Repr, DecidableEq

/-! ### Pin classification and miss side (`backend/app/caddie/aim_point.py`) -/

/-- `classify_pin_position` (aim_point.py lines 25–56). -/
def classify_pin_position (hole : HoleIntelligence) : String :=
  if hole.hazards = [] then "green"
  else
    let severe_close := hole.hazards.filter (fun h =>
      decide ((h.penalty_severity = "severe" ∨ h.penalty_severity = "death") ∧
        h.distance_from_green ≤ 10))
    if 2 ≤ severe_close.length then "red"
    else if severe_close.length = 1 then "yellow"
    else
      let death_hazards := hole.hazards.filter (fun h => h.penalty_severity = "death")
      if death_hazards ≠ [] then "yellow" else "green"

/-- `compute_aim_point` (aim_point.py lines 59–89).  The trailing `handicap`
parameter of the source is unused by the function body and dropped here. -/
def compute_aim_point (hole : HoleIntelligence)
    (player_stats : Option PlayerStatistics) : AimPoint :=
  let pin_light := classify_pin_position hole
  let miss_dir := match player_stats with
    | some ps => ps.tendencies.miss_direction
    | none => "balanced"
  let base :=
    if pin_light = "green" then "Aim at the flag — green light, no trouble"
    else if pin_light = "yellow" then "Aim between the pin and center of green"
    else "Aim center of green — sucker pin, don\x27t chase it"
  let death_sides := (hole.hazards.filter
    (fun h => h.penalty_severity = "death")).map (·.side)
  let description :=
    if "right" ∈ death_sides ∧ (miss_dir = "right" ∨ miss_dir = "balanced") then
      base ++ ". Favor the left side — penalty right"
    else if "left" ∈ death_sides ∧ (miss_dir = "left" ∨ miss_dir = "balanced") then
      base ++ ". Favor the right side — penalty left"
    else base
  { description := description }

/-- The severity→score table of `severity_score` (aim_point.py line 121),
`scores.get(s, 0)`. -/
def scoreOfSeverity (s : String) : ℤ :=
  if s = "mild" then 1
  else if s = "moderate" then 2
  else if s = "severe" then 3
  else if s = "death" then 5
  else 0

/-- `severity_score` (aim_point.py lines 120–124): worst severity on a side,
`0` for an empty bucket.  Python's `max` over a nonempty list of the
nonnegative scores is `foldl max 0`. -/
def severity_score (severities : List String) : ℤ :=
  if severities = [] then 0
  else (severities.map scoreOfSeverity).foldl max 0

/-- The per-side hazard bucket built by the loop at aim_point.py lines
115–117: hazards on `side` within 20 yards of the green. -/
def sideSeverities (hazards : List Hazard) (side : String) : List String :=
  (hazards.filter (fun h =>
    decide (h.side = side ∧ h.distance_from_green ≤ 20))).map (·.penalty_severity)

/-- `avoid_map` (aim_point.py lines 152–158), with its `"right"` default. -/
def avoidMap (s : String) : String :=
  if s = "left" then "right"
  else if s = "right" then "left"
  else if s = "short" then "long"
  else if s = "long" then "short"
  else "right"

/-- The `{"short": "front", "long": "back"}.get(side, side)` renaming used at
aim_point.py lines 180–185. -/
def frontBackName (s : String) : String :=
  if s = "short" then "front" else if s = "long" then "back" else s

/-- `pref_label.get(preferred, preferred).lower()` (aim_point.py lines
187–192): on the four reachable keys the capitalised label lowercases back to
the key itself. -/
def prefLabelLower (s : String) : String :=
  if s = "short" then "short"
  else if s = "long" then "long"
  else if s = "left" then "left"
  else if s = "right" then "right"
  else s

/-- `side_hazard_desc` (aim_point.py lines 161–178). -/
def side_hazard_desc (hazards : List Hazard) (side : String) : String :=
  let hazards_on_side := hazards.filter (fun h =>
    decide (h.side = side ∧ h.distance_from_green ≤ 20))
  if hazards_on_side = [] then "open"
  else
    let types := hazards_on_side.map (·.type)
    let parts : List String :=
      (if "water" ∈ types then ["water"] else []) ++
      (if "bunker" ∈ types then ["bunker"] else []) ++
      (if "ob" ∈ types then ["OB"] else []) ++
      (if "trees" ∈ types then ["trees"] else [])
    if parts = [] then "trouble" else String.intercalate ", " parts

/-- `compute_miss_side` (aim_point.py lines 92–200).  The tuples
`("left", left_score, right_score)` are kept as `String × ℤ × ℤ`; the Python
preference test `best_lr[2] > best_fb[2]` is the test `best_fb.2.2 < best_lr.2.2`
here.  The unused `player_stats` parameter is kept for signature fidelity. -/
def compute_miss_side (hole : HoleIntelligence)
    (player_stats : Option PlayerStatistics) : MissSide :=
  if hole.hazards = [] then
    { preferred := "short"
      description := "No major trouble — miss short for an easy chip"
      avoid := "Avoid going long — harder to get up and down" }
  else
    let left_score := severity_score (sideSeverities hole.hazards "left")
    let right_score := severity_score (sideSeverities hole.hazards "right")
    let front_score := severity_score (sideSeverities hole.hazards "front")
    let back_score := severity_score (sideSeverities hole.hazards "back")
    let best_lr : String × ℤ × ℤ :=
      if left_score ≤ right_score then ("left", left_score, right_score)
      else ("right", right_score, left_score)
    let best_fb : String × ℤ × ℤ :=
      if front_score ≤ back_score then ("short", front_score, back_score)
      else ("long", back_score, front_score)
    let preferred := if best_fb.2.2 < best_lr.2.2 then best_lr.1 else best_fb.1
    let avoid_side := avoidMap preferred
    let preferred_desc_suffix := side_hazard_desc hole.hazards (frontBackName preferred)
    let avoid_desc_suffix := side_hazard_desc hole.hazards (frontBackName avoid_side)
    let low := prefLabelLower preferred
    let pref_text :=
      if preferred_desc_suffix = "open" then
        s!"Miss {low} — safe side, easy recovery"
      else
        s!"Miss {low} — {preferred_desc_suffix} but manageable"
    let avoid_text := s!"Don\x27t miss {avoid_side} — {avoid_desc_suffix}"
    { preferred := preferred, description := pref_text, avoid := avoid_text }

/-! ### Wind model (`backend/app/services/weather.py`) -/

/-- Result record of `compute_wind_adjustment` (weather.py lines 103–162); the
float-formatted `description` is omitted. -/
structure WindEffect where
  distance_adjustment : ℤ
  lateral_adjustment : ℤ
deriving Repr, DecidableEq

/-- `compute_wind_adjustment` (weather.py lines 103–162).  The transcendental
step `cos/sin(radians(wind_direction_deg − shot_bearing_deg))` is abstracted
into the parameters `cosRel`/`sinRel` (the cosine and sine of the relative
angle); everything downstream is the source's exact arithmetic. -/
def compute_wind_adjustment (wind_speed_mph cosRel sinRel : ℚ)
    (shot_distance_yards : ℚ) : WindEffect :=
  if wind_speed_mph < 2 then ⟨0, 0⟩
  else
    let headwind := wind_speed_mph * cosRel
    let crosswind := wind_speed_mph * sinRel
    let dist_pct := if 0 < headwind then headwind * (1/100) else headwind * (5/1000)
    let distance_adj := pyRound (shot_distance_yards * dist_pct)
    let lateral_adj := pyRound (crosswind * (shot_distance_yards / 100))
    ⟨distance_adj, lateral_adj⟩

/-! ### Distance adjustments and club selection
(`backend/app/caddie/club_selection.py`) -/

/-- The elevation entry of `compute_adjustments` (club_selection.py lines
88–98): `None` when not applied. -/
def elevationAdj (elevation_change_ft : ℚ) : Option ShotAdjustment :=
  if 1 < |elevation_change_ft| then
    let elev_adj := pyRound (elevation_change_ft / 3)
    if elev_adj ≠ 0 then some ⟨"elevation", elev_adj⟩ else none
  else none

/-- The wind entry of `compute_adjustments` (club_selection.py lines 101–116). -/
def windAdj (w : WeatherConditions) (cosRel sinRel : ℚ)
    (raw_distance : ℤ) : Option ShotAdjustment :=
  if 3 ≤ w.wind_speed_mph then
    let wind := compute_wind_adjustment w.wind_speed_mph cosRel sinRel (raw_distance : ℚ)
    if wind.distance_adjustment ≠ 0 then some ⟨"wind", wind.distance_adjustment⟩
    else none
  else none

/-- The temperature entry of `compute_adjustments` (club_selection.py lines
118–128). -/
def temperatureAdj (w : WeatherConditions) : Option ShotAdjustment :=
  let temp_diff := w.temperature_f - 70
  let temp_adj := pyRound (-temp_diff * (2/10))
  if 2 ≤ |temp_adj| then some ⟨"temperature", temp_adj⟩ else none

/-- The altitude entry of `compute_adjustments` (club_selection.py lines
130–140). -/
def altitudeAdj (w : WeatherConditions) (raw_distance : ℤ) : Option ShotAdjustment :=
  if 500 < w.altitude_ft then
    let alt_pct := w.altitude_ft / 1000 * (2/100)
    let alt_adj := pyRound (-(raw_distance : ℚ) * alt_pct)
    if 2 ≤ |alt_adj| then some ⟨"altitude", alt_adj⟩ else none
  else none

/-- The turf-conditions entry of `compute_adjustments` (club_selection.py
lines 142–160). -/
def conditionsAdj (w : WeatherConditions) (raw_distance : ℤ) : Option ShotAdjustment :=
  if w.conditions = "soft" then
    let cond_adj := pyRound ((raw_distance : ℚ) * (3/100))
    if 2 ≤ cond_adj then some ⟨"conditions", cond_adj⟩ else none
  else if w.conditions = "firm" then
    let cond_adj := pyRound (-(raw_distance : ℚ) * (2/100))
    if cond_adj ≤ -2 then some ⟨"conditions", cond_adj⟩ else none
  else none

/-- `compute_adjustments` (club_selection.py lines 74–163).  The source
accumulates `total_adj` alongside each appended entry; here the entries are
collected and the total is their sum, which coincides because every append is
paired with the identical `total_adj +=`.  The wind trigonometry is abstracted
by `cosRel`/`sinRel` exactly as in `compute_wind_adjustment`. -/
def compute_adjustments (raw_distance : ℤ) (elevation_change_ft : ℚ)
    (weather : Option WeatherConditions) (cosRel sinRel : ℚ) :
    ℤ × List ShotAdjustment :=
  let opts : List (Option ShotAdjustment) :=
    [elevationAdj elevation_change_ft] ++
    (match weather with
     | none => []
     | some w => [windAdj w cosRel sinRel raw_distance, temperatureAdj w,
                  altitudeAdj w raw_distance, conditionsAdj w raw_distance])
  let adjustments := opts.reduceOption
  let total_adj := (adjustments.map (·.yards)).sum
  (max 1 (raw_distance + total_adj), adjustments)

/-- `DEFAULT_CLUB_DISTANCES` (club_selection.py lines 9–24), in source
(insertion) order. -/
def DEFAULT_CLUB_DISTANCES : List (String × ℤ) :=
  [("driver", 250), ("3wood", 230), ("5wood", 215), ("hybrid", 200),
   ("4iron", 190), ("5iron", 180), ("6iron", 170), ("7iron", 160),
   ("8iron", 150), ("9iron", 140), ("pw", 130), ("gw", 115),
   ("sw", 100), ("lw", 85)]

/-- `sorted(distances.items(), key=lambda x: x[1], reverse=True)`
(club_selection.py line 184): a stable descending sort by carry distance. -/
def sortClubsDesc (clubs : List (String × ℤ)) : List (String × ℤ) :=
  clubs.mergeSort (fun a b => decide (b.2 ≤ a.2))

/-- The bias shift of `select_club` (club_selection.py lines 189–193). -/
def biasYards (bias : String) : ℤ :=
  if bias = "conservative" then 5 else if bias = "aggressive" then -5 else 0

/-- The selection loop of `select_club` (club_selection.py lines 197–201):
first club of the descending list whose carry is within `target + 8`,
defaulting to the supplied `clubs[-1]`. -/
def pickClub : List (String × ℤ) → ℤ → (String × ℤ) → (String × ℤ)
  | [], _, dflt => dflt
  | c :: cs, target_with_bias, dflt =>
      if c.2 ≤ target_with_bias + 8 then c else pickClub cs target_with_bias dflt

/-- `distances = club_distances or DEFAULT_CLUB_DISTANCES` (club_selection.py
line 181): an empty profile falls back to the default table. -/
def effectiveClubs (club_distances : List (String × ℤ)) : List (String × ℤ) :=
  if club_distances = [] then DEFAULT_CLUB_DISTANCES else club_distances

/-- `select_club` (club_selection.py lines 166–203). -/
def select_club (target_yards : ℤ) (club_distances : List (String × ℤ))
    (bias : String) : String × ℤ :=
  let distances := effectiveClubs club_distances
  let clubs := sortClubsDesc distances
  match clubs with
  | [] => ("7iron", 160)
  | c :: cs =>
      let target_with_bias := target_yards + biasYards bias
      pickClub (c :: cs) target_with_bias ((c :: cs).getLast (by simp))

/-! ### Expected strokes (`backend/app/caddie/strokes_gained.py`) -/

/-- `_TEE_TABLE` (strokes_gained.py lines 13–20). -/
def TEE_TABLE : List (ℚ × ℚ) :=
  [(600, 4.40), (550, 4.30), (500, 4.20), (480, 4.15),
   (460, 4.12), (440, 4.08), (420, 4.05), (400, 4.00),
   (380, 3.96), (360, 3.92), (340, 3.88), (320, 3.84),
   (300, 3.80), (280, 3.75), (260, 3.70), (240, 3.65),
   (220, 3.58), (200, 3.50), (180, 3.40), (160, 3.28),
   (140, 3.15), (120, 3.00), (100, 2.85)]

/-- `_FAIRWAY_TABLE` (strokes_gained.py lines 22–29). -/
def FAIRWAY_TABLE : List (ℚ × ℚ) :=
  [(260, 3.60), (240, 3.50), (220, 3.40), (200, 3.25),
   (190, 3.18), (180, 3.12), (175, 3.08), (170, 3.05),
   (160, 2.98), (150, 2.92), (140, 2.86), (130, 2.82),
   (125, 2.80), (120, 2.78), (110, 2.74), (100, 2.70),
   (90, 2.66), (80, 2.62), (70, 2.58), (60, 2.55),
   (50, 2.52), (40, 2.50), (30, 2.47)]

/-- `_ROUGH_TABLE` (strokes_gained.py lines 31–36). -/
def ROUGH_TABLE : List (ℚ × ℚ) :=
  [(200, 3.60), (180, 3.45), (160, 3.30), (150, 3.15),
   (140, 3.10), (130, 3.05), (120, 3.00), (100, 2.95),
   (80, 2.85), (60, 2.78), (50, 2.75), (40, 2.72),
   (30, 2.68), (20, 2.63)]

/-- `_SAND_TABLE` (strokes_gained.py lines 38–41). -/
def SAND_TABLE : List (ℚ × ℚ) :=
  [(60, 2.80), (50, 2.70), (40, 2.60), (30, 2.53),
   (20, 2.43), (10, 2.30)]

/-- `_GREEN_TABLE` (strokes_gained.py lines 43–49), distances in feet. -/
def GREEN_TABLE : List (ℚ × ℚ) :=
  [(90, 2.60), (80, 2.55), (70, 2.50), (60, 2.40),
   (50, 2.30), (45, 2.25), (40, 2.20), (35, 2.14),
   (30, 2.10), (25, 2.02), (20, 1.94), (15, 1.80),
   (10, 1.63), (8, 1.50), (6, 1.38), (5, 1.28),
   (4, 1.20), (3, 1.13), (2, 1.06), (1, 1.02)]

/-- The scanning loop of `_interpolate` (strokes_gained.py lines 74–79): the
first adjacent pair bracketing the distance, with the `d1 != d2` guard. -/
def interpLoop : List (ℚ × ℚ) → ℚ → Option ℚ
  | (d1, s1) :: (d2, s2) :: rest, x =>
      if d2 ≤ x ∧ x ≤ d1 then
        some (s2 + (if d1 ≠ d2 then (x - d2) / (d1 - d2) else 0) * (s1 - s2))
      else interpLoop ((d2, s2) :: rest) x
  | _, _ => none

/-- `_interpolate` (strokes_gained.py lines 65–81): clamp outside the table’s
range, scan inside it, fall through to the last entry. -/
def interpolate (table : List (ℚ × ℚ)) (distance : ℚ) : ℚ :=
  match table with
  | [] => 3
  | p :: rest =>
      let lastP := (p :: rest).getLast (by simp)
      if p.1 ≤ distance then p.2
      else if distance ≤ lastP.1 then lastP.2
      else (interpLoop (p :: rest) distance).getD lastP.2

/-- `_HANDICAP_MULTIPLIERS` (strokes_gained.py lines 53–62), as the ascending
`(key, value)` list that `sorted(keys)` realises. -/
def HANDICAP_MULTIPLIERS : List (ℚ × ℚ) :=
  [(0, 1.00), (5, 1.06), (10, 1.14), (15, 1.22),
   (20, 1.32), (25, 1.42), (30, 1.55), (36, 1.70)]

/-- The scanning loop of `_handicap_multiplier` (strokes_gained.py lines
97–103), including the unreachable fallthrough `return 1.2`. -/
def multLoop : List (ℚ × ℚ) → ℚ → ℚ
  | (k1, v1) :: (k2, v2) :: rest, h =>
      if k1 ≤ h ∧ h ≤ k2 then v1 + (h - k1) / (k2 - k1) * (v2 - v1)
      else multLoop ((k2, v2) :: rest) h
  | _, _ => 1.2

/-- `_handicap_multiplier` (strokes_gained.py lines 84–105).  `keys[0] = 0`
with value `1.00` and `keys[-1] = 36` with value `1.70` are inlined. -/
def handicap_multiplier (handicap : Option ℚ) : ℚ :=
  let h := handicap.getD 15
  let hcp := max 0 (min 36 h)
  if hcp ≤ 0 then 1.00
  else if 36 ≤ hcp then 1.70
  else multLoop HANDICAP_MULTIPLIERS hcp

/-- The `tables` dispatch of `expected_strokes` (strokes_gained.py lines
123–131): unknown lies fall back to the fairway table. -/
def tableForLie (lie : String) : List (ℚ × ℚ) :=
  if lie = "tee" then TEE_TABLE
  else if lie = "fairway" then FAIRWAY_TABLE
  else if lie = "rough" then ROUGH_TABLE
  else if lie = "sand" then SAND_TABLE
  else if lie = "green" then GREEN_TABLE
  else FAIRWAY_TABLE

/-- `expected_strokes` (strokes_gained.py lines 108–139); the green branch of
the source applies the identical interpolation (the input is already feet). -/
def expected_strokes (distance_yards : ℚ) (lie : String)
    (handicap : Option ℚ) : ℚ :=
  interpolate (tableForLie lie) distance_yards * handicap_multiplier handicap

/-- `strokes_gained` (strokes_gained.py lines 142–163). -/
def strokes_gained (strokes_taken : ℤ) (start_distance : ℚ) (start_lie : String)
    (end_distance : ℚ) (end_lie : String) (handicap : Option ℚ) : ℚ :=
  let expected_before := expected_strokes start_distance start_lie handicap
  let expected_after :=
    if end_distance = 0 ∧ end_lie = "hole" then 0
    else expected_strokes end_distance end_lie handicap
  expected_before - expected_after - strokes_taken

/-! ### Player statistics (`backend/app/caddie/player_stats.py`) -/

/-- One entry of a round's `scores` list: `holeNumber`/`strokes` may each be
missing (`s.get(...)` returning `None`). -/
structure ScoreEntry where
  holeNumber : Option ℕ
  strokes : Option ℤ
deriving Repr, DecidableEq

/-- One round record as consumed by `analyze_player_stats`: `holes` carries
`(number, par)` pairs, plus the player's `scores`.  The `courseId` tag is
only threaded into `all_scores` for the unused course filter and omitted. -/
structure RoundRecord where
  holes : List (ℕ × ℤ)
  scores : List ScoreEntry
deriving Repr, DecidableEq

/-- A flattened per-hole score of `all_scores` (player_stats.py lines 45–57). -/
structure HoleScore where
  holeNumber : ℕ
  strokes : ℤ
  par : ℤ
deriving Repr, DecidableEq

/-- `holes_by_num = {h["number"]: h}` then `.get(hole_num, {}).get("par", 4)`
(player_stats.py lines 36, 50–51); hole numbers are unique within a round, so
dict lookup is `find?`. -/
def parForHole (holes : List (ℕ × ℤ)) (n : ℕ) : ℤ :=
  ((holes.find? (fun p => p.1 = n)).map (·.2)).getD 4

/-- The per-round inner loop of `analyze_player_stats` (player_stats.py lines
45–57): scores with both fields present, annotated with the hole's par. -/
def roundHoleScores (r : RoundRecord) : List HoleScore :=
  r.scores.filterMap (fun s =>
    match s.holeNumber, s.strokes with
    | some n, some k => some ⟨n, k, parForHole r.holes n⟩
    | _, _ => none)

/-- `rounds_analyzed` counts rounds whose `scores` list is nonempty
(player_stats.py lines 41–44). -/
def roundsAnalyzed (rounds : List RoundRecord) : ℤ :=
  (rounds.filter (fun r => decide (r.scores ≠ []))).length

/-- `all_scores` (player_stats.py lines 32–57): rounds with an empty `scores`
list are skipped and contribute nothing anyway. -/
def allScores (rounds : List RoundRecord) : List HoleScore :=
  (rounds.map roundHoleScores).flatten

/-- `_default_stats` (player_stats.py lines 163–201).  The tendencies the
source does not set (`par5_bogey_rate`, `scoring_zone_bogey_rate`) take their
pydantic defaults 20.0 and 25.0. -/
def default_stats (handicap : Option ℚ) : PlayerStatistics :=
  let hcp := pyOr15 handicap
  let dist : ScoringDistribution :=
    if hcp ≤ 5 then ⟨1.0, 15.0, 50.0, 25.0, 7.0, 2.0⟩
    else if hcp ≤ 15 then ⟨0.5, 8.0, 35.0, 35.0, 15.0, 6.5⟩
    else if hcp ≤ 25 then ⟨0.2, 3.0, 20.0, 35.0, 25.0, 16.8⟩
    else ⟨0.0, 1.0, 10.0, 25.0, 30.0, 34.0⟩
  let par_avg : ParAverages :=
    if hcp ≤ 5 then ⟨3.1, 4.2, 4.9⟩
    else if hcp ≤ 15 then ⟨3.5, 4.8, 5.3⟩
    else if hcp ≤ 25 then ⟨4.0, 5.3, 6.0⟩
    else ⟨4.5, 5.8, 6.8⟩
  { handicap := handicap
    rounds_analyzed := 0
    scoring_distribution := dist
    par_averages := par_avg
    tendencies :=
      { miss_direction := if 10 < hcp then "right" else "balanced"
        miss_short_pct := if 10 < hcp then 58.0 else 52.0
        miss_long_pct := if 10 < hcp then 42.0 else 48.0
        three_putts_per_round := max 0.5 (hcp * (15/100))
        doubles_per_round := max 0.5 (hcp * (15/100))
        par5_bogey_rate := 20.0
        scoring_zone_bogey_rate := 25.0 } }

/-- `analyze_player_stats` (player_stats.py lines 14–123). -/
def analyze_player_stats (rounds : List RoundRecord)
    (handicap : Option ℚ) : PlayerStatistics :=
  if rounds = [] then default_stats handicap
  else
    let scores := allScores rounds
    if scores = [] then default_stats handicap
    else
      let rounds_analyzed := roundsAnalyzed rounds
      let total_holes : ℚ := scores.length
      let pct (p : HoleScore → Bool) : ℚ :=
        ((scores.filter p).length : ℚ) / total_holes * 100
      let eagles := pct (fun s => decide (s.strokes ≤ s.par - 2))
      let birdies := pct (fun s => decide (s.strokes = s.par - 1))
      let pars := pct (fun s => decide (s.strokes = s.par))
      let bogeys := pct (fun s => decide (s.strokes = s.par + 1))
      let doubles := pct (fun s => decide (s.strokes = s.par + 2))
      let triples := pct (fun s => decide (s.par + 3 ≤ s.strokes))
      let par3_scores := (scores.filter (fun s => decide (s.par = 3))).map (·.strokes)
      let par4_scores := (scores.filter (fun s => decide (s.par = 4))).map (·.strokes)
      let par5_scores := (scores.filter (fun s => decide (s.par = 5))).map (·.strokes)
      let par_avg : ParAverages :=
        { par3 := if par3_scores = [] then 3.5
            else (par3_scores.sum : ℚ) / (par3_scores.length : ℚ)
          par4 := if par4_scores = [] then 4.8
            else (par4_scores.sum : ℚ) / (par4_scores.length : ℚ)
          par5 := if par5_scores = [] then 5.5
            else (par5_scores.sum : ℚ) / (par5_scores.length : ℚ) }
      let doubles_total := (scores.filter (fun s => decide (s.par + 2 ≤ s.strokes))).length
      let doubles_per_round : ℚ := (doubles_total : ℚ) / (max rounds_analyzed 1 : ℤ)
      let par5_bogey := (scores.filter (fun s =>
        decide (s.par = 5 ∧ 6 ≤ s.strokes))).length
      let par5_total := par5_scores.length
      let par5_bogey_rate : ℚ :=
        if 0 < par5_total then (par5_bogey : ℚ) / (par5_total : ℚ) * 100 else 20.0
      let miss_direction := match handicap with
        | none => "balanced"
        | some h => if 10 < h then "right" else "balanced"
      { handicap := handicap
        rounds_analyzed := rounds_analyzed
        scoring_distribution :=
          { eagles := pyRound1 eagles
            birdies := pyRound1 birdies
            pars := pyRound1 pars
            bogeys := pyRound1 bogeys
            doubles := pyRound1 doubles
            triples_plus := pyRound1 triples }
        par_averages := par_avg
        tendencies :=
          { miss_direction := miss_direction
            miss_short_pct := if 10 < pyOr15 handicap then 58.0 else 52.0
            miss_long_pct := if 10 < pyOr15 handicap then 42.0 else 48.0
            three_putts_per_round := max 0.5 (min 5.0 (pyOr15 handicap * (15/100)))
            doubles_per_round := pyRound1 doubles_per_round
            par5_bogey_rate := pyRound1 par5_bogey_rate
            scoring_zone_bogey_rate := 25.0 } }

/-! ### Round session store (`backend/app/caddie/session.py`) -/

/-- `RoundSession` (session.py lines 37–60): the TTL-relevant fields; the
cached payload (weather, hole intel, stats, shot and conversation history,
club distances) does not influence session lifetime and is omitted. -/
structure RoundSession where
  round_id : String
  course_id : Option String
  created_at : ℚ
  last_accessed : ℚ
deriving Repr, DecidableEq

/-- `SESSION_TTL_SECONDS = 8 * 60 * 60` (session.py line 64). -/
def SESSION_TTL_SECONDS : ℚ := 8 * 60 * 60

/-- The `SessionManager._sessions` dict (session.py line 73), modelled as a
function into `Option`. -/
abbrev SessionMap := String → Option RoundSession

/-- `SessionManager.get_or_create` (session.py lines 76–91); `now` stands for
the `time.time()` read. -/
def SessionManager.get_or_create (st : SessionMap) (now : ℚ) (round_id : String)
    (course_id : Option String) : RoundSession × SessionMap :=
  match st round_id with
  | none =>
      let s : RoundSession :=
        { round_id := round_id, course_id := course_id
          created_at := now, last_accessed := now }
      (s, fun k => if k = round_id then some s else st k)
  | some s =>
      let s2 := { s with last_accessed := now }
      (s2, fun k => if k = round_id then some s2 else st k)

/-- `SessionManager.get` (session.py lines 93–103); the source reads
`time.time()` twice an instant apart, modelled as the single instant `now`.
The refresh mutates the stored object in place, hence the map update. -/
def SessionManager.get (st : SessionMap) (now : ℚ) (round_id : String) :
    Option RoundSession × SessionMap :=
  match st round_id with
  | none => (none, st)
  | some s =>
      if SESSION_TTL_SECONDS < now - s.last_accessed then
        (none, fun k => if k = round_id then none else st k)
      else
        let s2 := { s with last_accessed := now }
        (some s2, fun k => if k = round_id then some s2 else st k)

/-- `SessionManager.update` (session.py lines 105–109): refresh the timestamp
and write the session back under its key. -/
def SessionManager.update (st : SessionMap) (now : ℚ)
    (session : RoundSession) : SessionMap :=
  let s2 := { session with last_accessed := now }
  fun k => if k = session.round_id then some s2 else st k

/-! ### Specification-side definitions

These follow the wording of the specification claims (not the code) and exist
to be compared against the embedded source functions. -/

/-- Spec wording: score a side by the worst severity among the hazards on that
side within 20 yards of the green (mild=1, moderate=2, severe=3, death=5,
empty=0). -/
def specSideDanger (hazards : List Hazard) (side : String) : ℤ :=
  ((hazards.filter (fun h =>
    decide (h.side = side ∧ h.distance_from_green ≤ 20))).map
      (fun h => scoreOfSeverity h.penalty_severity)).foldl max 0

/-- Spec wording: the lower-scored side of the left/right axis. -/
def specLrPick (hazards : List Hazard) : String :=
  if specSideDanger hazards "left" ≤ specSideDanger hazards "right" then "left"
  else "right"

/-- Spec wording: the danger of the rejected (higher-scored) left/right side. -/
def specLrRejected (hazards : List Hazard) : ℤ :=
  max (specSideDanger hazards "left") (specSideDanger hazards "right")

/-- Spec wording: the lower-scored side of the short/long (front/back) axis. -/
def specFbPick (hazards : List Hazard) : String :=
  if specSideDanger hazards "front" ≤ specSideDanger hazards "back" then "short"
  else "long"

/-- Spec wording: the danger of the rejected (higher-scored) short/long side. -/
def specFbRejected (hazards : List Hazard) : ℤ :=
  max (specSideDanger hazards "front") (specSideDanger hazards "back")

/-- The claim's axis-preference rule, verbatim: return the left/right pick
exactly when the rejected short/long side's danger strictly exceeds the
rejected left/right side's danger. -/
def claimPreferredSide (hazards : List Hazard) : String :=
  if specLrRejected hazards < specFbRejected hazards then specLrPick hazards
  else specFbPick hazards

/-- The axis preference the code implements: return the left/right pick
exactly when the rejected left/right side's danger strictly exceeds the
rejected short/long side's danger. -/
def codePreferredSide (hazards : List Hazard) : String :=
  if specFbRejected hazards < specLrRejected hazards then specLrPick hazards
  else specFbPick hazards

/-- Spec wording for C2: the number of hazards with severity severe or death
at most 10 yards from the green. -/
def severeCloseCount (hazards : List Hazard) : ℕ :=
  hazards.countP (fun h =>
    decide ((h.penalty_severity = "severe" ∨ h.penalty_severity = "death") ∧
      h.distance_from_green ≤ 10))

/-! ### Concrete scenario inputs -/

/-- A hole whose only hazard is a death hazard left of the green, 5 yards out. -/
def deathLeftHole : HoleIntelligence :=
  { hole_number := 1, par := 4, yards := 400, elevation_change_ft := 0
    hazards := [{ type := "water", side := "left", distance_from_green := 5
                  penalty_severity := "death" }] }

/-- Scenario A of the spec: a single death water hazard 5 yards right of the
green. -/
def scenarioAHole : HoleIntelligence :=
  { hole_number := 1, par := 4, yards := 400, elevation_change_ft := 0
    hazards := [{ type := "water", side := "right", distance_from_green := 5
                  penalty_severity := "death" }] }

/-- Scenario A's player: a 15-handicap profile, whose derived miss direction
is "right". -/
def scenarioAStats : PlayerStatistics := default_stats (some 15)

/-- A hole with no hazards. -/
def openHole : HoleIntelligence :=
  { hole_number := 2, par := 3, yards := 150, elevation_change_ft := 0
    hazards := [] }

/-- A one-hole round scored as a double bogey (par 4, 6 strokes). -/
def doubleRound : RoundRecord :=
  { holes := [(1, 4)], scores := [{ holeNumber := some 1, strokes := some 6 }] }

/-- A one-hole round scored as a par (par 4, 4 strokes). -/
def parRound : RoundRecord :=
  { holes := [(1, 4)], scores := [{ holeNumber := some 1, strokes := some 4 }] }

/-- A session store holding the single round "r1", created and last accessed
at time 0. -/
def oneSessionStore : SessionMap :=
  fun k =>
    if k = "r1" then
      some { round_id := "r1", course_id := none, created_at := 0, last_accessed := 0 }
    else none

/-! ### Helper lemmas -/

theorem pyRound_intCast (n : ℤ) : pyRound (n : ℚ) = n := by
  simp [pyRound]

theorem pyRound_eq_self (q : ℚ) (n : ℤ) (h : q = (n : ℚ)) : pyRound q = n := by
  rw [h, pyRound_intCast]

theorem pyRound1_eq_self (q : ℚ) (n : ℤ) (h : q = (n : ℚ)) : pyRound1 q = n := by
  rw [h, pyRound1, pyRound_eq_self ((n : ℚ) * 10) (n * 10) (by push_cast; ring)]
  push_cast; ring

/-- The worst-severity computation of the source (bucket lists, then
`severity_score`) agrees with the spec-side per-side danger score. -/
theorem severityScore_eq (hz : List Hazard) (s : String) :
    severity_score (sideSeverities hz s) = specSideDanger hz s := by
  unfold severity_score sideSeverities specSideDanger
  rw [List.map_map]
  split
  · next heq =>
      rw [List.map_eq_nil_iff] at heq
      rw [heq]
      simp
  · rfl

/-! ### C1 — miss-side computation -/

/-- C1 counterexample: with a single death hazard left of the green the code
returns the left/right pick "right" although the rejected short/long danger
(0) does not exceed the rejected left/right danger (5); the claim's rule
would return the short/long pick "short". -/
theorem c1_counterexample :
    (compute_miss_side deathLeftHole none).preferred = "right" ∧
    claimPreferredSide deathLeftHole.hazards = "short" ∧
    specFbRejected deathLeftHole.hazards = 0 ∧
    specLrRejected deathLeftHole.hazards = 5 := ⟨rfl, rfl, rfl, rfl⟩

/-- C1 (amended): for every hole with a non-empty hazard list, the miss-side
computation buckets hazards within 20 yards by side, scores each side by its
worst severity (mild=1, moderate=2, severe=3, death=5, empty=0), picks the
lower-scored side of each axis, and returns the left/right pick instead of
the short/long pick exactly when the rejected left/right side's danger
strictly exceeds the rejected short/long side's danger. -/
theorem c1_miss_side_amended (hole : HoleIntelligence)
    (ps : Option PlayerStatistics) (h : hole.hazards ≠ []) :
    (compute_miss_side hole ps).preferred = codePreferredSide hole.hazards := by
  have e : ∀ s, severity_score (sideSeverities hole.hazards s) =
      specSideDanger hole.hazards s := fun s => severityScore_eq _ _
  rcases le_or_lt (specSideDanger hole.hazards "left")
    (specSideDanger hole.hazards "right") with hlr | hlr <;>
  rcases le_or_lt (specSideDanger hole.hazards "front")
    (specSideDanger hole.hazards "back") with hfb | hfb
  · simp [compute_miss_side, if_neg h, e, codePreferredSide, specLrRejected,
      specFbRejected, specLrPick, specFbPick, hlr, hfb,
      max_eq_right hlr, max_eq_right hfb]
  · simp [compute_miss_side, if_neg h, e, codePreferredSide, specLrRejected,
      specFbRejected, specLrPick, specFbPick, hlr, not_le.mpr hfb,
      max_eq_right hlr, max_eq_left hfb.le]
  · simp [compute_miss_side, if_neg h, e, codePreferredSide, specLrRejected,
      specFbRejected, specLrPick, specFbPick, not_le.mpr hlr, hfb,
      max_eq_left hlr.le, max_eq_right hfb]
  · simp [compute_miss_side, if_neg h, e, codePreferredSide, specLrRejected,
      specFbRejected, specLrPick, specFbPick, not_le.mpr hlr, not_le.mpr hfb,
      max_eq_left hlr.le, max_eq_left hfb.le]

/-- C1 witness: the amended theorem applied to the concrete death-left hole. -/
theorem c1_witness :
    deathLeftHole.hazards ≠ [] ∧
    (compute_miss_side deathLeftHole none).preferred =
      codePreferredSide deathLeftHole.hazards :=
  ⟨by simp [deathLeftHole], c1_miss_side_amended deathLeftHole none (by simp [deathLeftHole])⟩

/-! ### C2 — pin danger classification -/

/-- C2: pin danger is red iff at least two hazards are severe-or-death within
10 yards of the green, yellow iff exactly one such hazard exists or otherwise
some death hazard exists at any distance, and green in all remaining cases;
scenario A (a single death water hazard 5 yards right) classifies yellow,
aims between the pin and the center, and steers the miss away from the right. -/
theorem c2_pin_danger :
    (∀ hole : HoleIntelligence,
      (classify_pin_position hole = "red" ↔ 2 ≤ severeCloseCount hole.hazards) ∧
      (classify_pin_position hole = "yellow" ↔
        (severeCloseCount hole.hazards = 1 ∨
         (severeCloseCount hole.hazards = 0 ∧
          ∃ x ∈ hole.hazards, x.penalty_severity = "death"))) ∧
      (classify_pin_position hole = "green" ↔
        (severeCloseCount hole.hazards = 0 ∧
         ∀ x ∈ hole.hazards, x.penalty_severity ≠ "death"))) ∧
    classify_pin_position scenarioAHole = "yellow" ∧
    (compute_aim_point scenarioAHole (some scenarioAStats)).description =
      "Aim between the pin and center of green. Favor the left side — penalty right" ∧
    (compute_miss_side scenarioAHole (some scenarioAStats)).preferred = "left" ∧
    (compute_miss_side scenarioAHole (some scenarioAStats)).avoid =
      "Don\x27t miss right — water" := by
  refine ⟨?_, rfl, rfl, rfl, rfl⟩
  intro hole
  by_cases h0 : hole.hazards = []
  · simp [classify_pin_position, h0, severeCloseCount]
  · have hdiff : (List.filter (fun h => decide (h.penalty_severity = "death"))
        hole.hazards = []) ↔ ∀ x ∈ hole.hazards, ¬x.penalty_severity = "death" := by
      rw [List.filter_eq_nil_iff]
      simp
    simp only [classify_pin_position]
    rw [if_neg h0, severeCloseCount, List.countP_eq_length_filter]
    set n := (hole.hazards.filter (fun h =>
      decide ((h.penalty_severity = "severe" ∨ h.penalty_severity = "death") ∧
        h.distance_from_green ≤ 10))).length with hn
    by_cases h2 : 2 ≤ n
    · rw [if_pos h2]
      refine ⟨iff_of_true rfl h2, ?_, ?_⟩
      · refine iff_of_false (by decide) ?_
        rintro (h | ⟨h, -⟩) <;> omega
      · refine iff_of_false (by decide) ?_
        rintro ⟨h, -⟩
        omega
    · rw [if_neg h2]
      by_cases h1 : n = 1
      · rw [if_pos h1]
        refine ⟨iff_of_false (by decide) h2, iff_of_true rfl (Or.inl h1), ?_⟩
        refine iff_of_false (by decide) ?_
        rintro ⟨h, -⟩
        omega
      · rw [if_neg h1]
        by_cases hd : hole.hazards.filter (fun h => decide (h.penalty_severity = "death")) = []
        · rw [if_neg (not_not_intro hd)]
          have hnod := hdiff.mp hd
          refine ⟨iff_of_false (by decide) h2, ?_,
            iff_of_true rfl ⟨by omega, hnod⟩⟩
          refine iff_of_false (by decide) ?_
          rintro (h | ⟨-, ⟨x, hx, hxd⟩⟩)
          · exact h1 h
          · exact hnod x hx hxd
        · rw [if_pos hd]
          have hex : ∃ x ∈ hole.hazards, x.penalty_severity = "death" := by
            by_contra hc
            push_neg at hc
            exact hd (hdiff.mpr hc)
          refine ⟨iff_of_false (by decide) h2,
            iff_of_true rfl (Or.inr ⟨by omega, hex⟩), ?_⟩
          refine iff_of_false (by decide) ?_
          rintro ⟨-, hall⟩
          rcases hex with ⟨x, hx, hxd⟩
          exact hall x hx hxd

/-! ### C9 — empty hazard list miss side -/

/-- C9: for every hole with an empty hazard list and any (possibly absent)
player statistics, the miss-side computation returns the fixed "short"
guidance, independent of the player's tendencies. -/
theorem c9_no_hazards (hole : HoleIntelligence) (ps : Option PlayerStatistics)
    (h : hole.hazards = []) :
    compute_miss_side hole ps =
      { preferred := "short"
        description := "No major trouble — miss short for an easy chip"
        avoid := "Avoid going long — harder to get up and down" } := by
  rw [compute_miss_side, if_pos h]

/-- C9 witness: the hazard-free hole with absent player statistics. -/
theorem c9_witness :
    openHole.hazards = [] ∧
    compute_miss_side openHole none =
      { preferred := "short"
        description := "No major trouble — miss short for an easy chip"
        avoid := "Avoid going long — harder to get up and down" } :=
  ⟨rfl, c9_no_hazards openHole none rfl⟩

/-! ### C3 / C4 — wind and distance adjustments -/

theorem elevationAdj_eq_some (e : ℚ) (a : ShotAdjustment)
    (h : elevationAdj e = some a) :
    a.type = "elevation" ∧ a.yards = pyRound (e / 3) ∧ 1 < |e| := by
  simp only [elevationAdj] at h
  split_ifs at h with h1 h2
  · rw [Option.some_inj] at h
    subst h
    exact ⟨rfl, rfl, h1⟩

theorem windAdj_eq_some (w : WeatherConditions) (c s : ℚ) (raw : ℤ)
    (a : ShotAdjustment) (h : windAdj w c s raw = some a) :
    a.type = "wind" ∧
    a.yards = (compute_wind_adjustment w.wind_speed_mph c s (raw : ℚ)).distance_adjustment := by
  simp only [windAdj] at h
  split_ifs at h with h1 h2
  · rw [Option.some_inj] at h
    subst h
    exact ⟨rfl, rfl⟩

theorem temperatureAdj_eq_some (w : WeatherConditions) (a : ShotAdjustment)
    (h : temperatureAdj w = some a) : a.type = "temperature" := by
  simp only [temperatureAdj] at h
  split_ifs at h with h1
  · rw [Option.some_inj] at h
    subst h
    rfl

theorem altitudeAdj_eq_some (w : WeatherConditions) (raw : ℤ) (a : ShotAdjustment)
    (h : altitudeAdj w raw = some a) : a.type = "altitude" := by
  simp only [altitudeAdj] at h
  split_ifs at h with h1 h2
  · rw [Option.some_inj] at h
    subst h
    rfl

theorem conditionsAdj_eq_some (w : WeatherConditions) (raw : ℤ) (a : ShotAdjustment)
    (h : conditionsAdj w raw = some a) : a.type = "conditions" := by
  simp only [conditionsAdj] at h
  split_ifs at h with h1 h2 h3 h4
  · rw [Option.some_inj] at h
    subst h
    rfl
  · rw [Option.some_inj] at h
    subst h
    rfl

/-- C3: for wind at or above the 3 mph gate, the distance adjustment is
`round(d · headwind · 1%)` for a positive headwind component and
`round(d · headwind · 0.5%)` otherwise; the crosswind estimate
`crosswind · d/100` stays in the lateral field and every wind entry of the
adjustment list carries only the distance adjustment; a 10 mph pure headwind
at 150 yards adds 15 yards. -/
theorem c3_wind_adjustment (speed cosRel sinRel dist : ℚ) (hs : 3 ≤ speed) :
    ((compute_wind_adjustment speed cosRel sinRel dist).distance_adjustment =
      if 0 < speed * cosRel then pyRound (dist * (speed * cosRel) * (1/100))
      else pyRound (dist * (speed * cosRel) * (5/1000))) ∧
    ((compute_wind_adjustment speed cosRel sinRel dist).lateral_adjustment =
      pyRound ((speed * sinRel) * (dist / 100))) ∧
    (∀ (raw : ℤ) (elev : ℚ) (w : WeatherConditions), w.wind_speed_mph = speed →
      ∀ a ∈ (compute_adjustments raw elev (some w) cosRel sinRel).2,
        a.type = "wind" →
        a.yards = (compute_wind_adjustment speed cosRel sinRel (raw : ℚ)).distance_adjustment) ∧
    (compute_wind_adjustment 10 1 0 150).distance_adjustment = 15 := by
  have hlt : ¬(speed < 2) := by linarith
  refine ⟨?_, ?_, ?_, ?_⟩
  · simp only [compute_wind_adjustment, if_neg hlt]
    split_ifs with hpos
    · congr 1
      ring
    · congr 1
      ring
  · simp only [compute_wind_adjustment, if_neg hlt]
  · intro raw elev w hw a ha hat
    simp only [compute_adjustments, List.reduceOption_mem_iff, List.cons_append,
      List.nil_append, List.mem_cons, List.not_mem_nil, or_false] at ha
    rcases ha with h | h | h | h | h
    · rw [(elevationAdj_eq_some elev a h.symm).1] at hat
      exact absurd hat (by decide)
    · obtain ⟨-, hy⟩ := windAdj_eq_some w cosRel sinRel raw a h.symm
      rw [hy, hw]
    · rw [temperatureAdj_eq_some w a h.symm] at hat
      exact absurd hat (by decide)
    · rw [altitudeAdj_eq_some w raw a h.symm] at hat
      exact absurd hat (by decide)
    · rw [conditionsAdj_eq_some w raw a h.symm] at hat
      exact absurd hat (by decide)
  · rw [compute_wind_adjustment]
    norm_num
    rw [pyRound_eq_self _ 15 (by norm_num)]

/-- C3 witness: the 10 mph pure-headwind scenario instantiates the theorem. -/
theorem c3_witness :
    (3 : ℚ) ≤ 10 ∧
    (compute_wind_adjustment 10 1 0 150).distance_adjustment =
      (if 0 < (10 : ℚ) * 1 then pyRound (150 * ((10 : ℚ) * 1) * (1/100))
       else pyRound (150 * ((10 : ℚ) * 1) * (5/1000))) :=
  ⟨by norm_num, (c3_wind_adjustment 10 1 0 150 (by norm_num)).1⟩

/-- C4: the adjusted distance is `max 1 (raw + Σ adjustment yards)`; every
elevation entry equals `round(elevation_ft / 3)` and only appears when
`|elevation_ft| > 1`; whenever `|elevation_ft| > 1` and the rounded value is
nonzero the elevation entry is present; raw 150 with 9 ft uphill and no
weather adjusts to 153. -/
theorem c4_distance_adjustments (raw : ℤ) (elev : ℚ)
    (weather : Option WeatherConditions) (cosRel sinRel : ℚ) :
    ((compute_adjustments raw elev weather cosRel sinRel).1 =
      max 1 (raw +
        (((compute_adjustments raw elev weather cosRel sinRel).2).map (·.yards)).sum)) ∧
    (∀ a ∈ (compute_adjustments raw elev weather cosRel sinRel).2,
      a.type = "elevation" → a.yards = pyRound (elev / 3) ∧ 1 < |elev|) ∧
    (1 < |elev| → pyRound (elev / 3) ≠ 0 →
      (⟨"elevation", pyRound (elev / 3)⟩ : ShotAdjustment) ∈
        (compute_adjustments raw elev weather cosRel sinRel).2) ∧
    compute_adjustments 150 9 none 0 0 = (153, [⟨"elevation", 3⟩]) := by
  refine ⟨rfl, ?_, ?_, ?_⟩
  · intro a ha hat
    rcases weather with _ | w
    · simp only [compute_adjustments, List.reduceOption_mem_iff, List.append_nil,
        List.mem_singleton] at ha
      obtain ⟨-, h2, h3⟩ := elevationAdj_eq_some elev a ha.symm
      exact ⟨h2, h3⟩
    · simp only [compute_adjustments, List.reduceOption_mem_iff, List.cons_append,
        List.nil_append, List.mem_cons, List.not_mem_nil, or_false] at ha
      rcases ha with h | h | h | h | h
      · obtain ⟨-, h2, h3⟩ := elevationAdj_eq_some elev a h.symm
        exact ⟨h2, h3⟩
      · rw [(windAdj_eq_some w cosRel sinRel raw a h.symm).1] at hat
        exact absurd hat (by decide)
      · rw [temperatureAdj_eq_some w a h.symm] at hat
        exact absurd hat (by decide)
      · rw [altitudeAdj_eq_some w raw a h.symm] at hat
        exact absurd hat (by decide)
      · rw [conditionsAdj_eq_some w raw a h.symm] at hat
        exact absurd hat (by decide)
  · intro h1 h2
    have helev : elevationAdj elev = some ⟨"elevation", pyRound (elev / 3)⟩ := by
      rw [elevationAdj, if_pos h1]
      simp [h2]
    rcases weather with _ | w <;>
      simp [compute_adjustments, List.reduceOption_mem_iff, helev]
  · have helev : elevationAdj 9 = some ⟨"elevation", 3⟩ := by
      rw [elevationAdj]
      norm_num
      rw [pyRound_eq_self (3 : ℚ) 3 (by norm_num)]
      norm_num
    simp [compute_adjustments, helev]

/-- C4 witness: the 9 ft uphill scenario discharges the membership
hypotheses of the theorem. -/
theorem c4_witness :
    (1 : ℚ) < |(9 : ℚ)| ∧ pyRound ((9 : ℚ) / 3) ≠ 0 ∧
    (⟨"elevation", pyRound ((9 : ℚ) / 3)⟩ : ShotAdjustment) ∈
      (compute_adjustments 150 9 none 0 0).2 := by
  have h2 : pyRound ((9 : ℚ) / 3) ≠ 0 := by
    rw [pyRound_eq_self ((9 : ℚ)/3) 3 (by norm_num)]
    decide
  exact ⟨by norm_num, h2,
    (c4_distance_adjustments 150 9 none 0 0).2.2.1 (by norm_num) h2⟩

/-! ### C6 — handicap multiplier -/

theorem multLoop_lb (l : List (ℚ × ℚ)) :
    ∀ (k1 v1 h : ℚ),
    (∃ p ∈ l, h ≤ p.1) →
    List.Pairwise (fun a b : ℚ × ℚ => a.1 < b.1) ((k1, v1) :: l) →
    List.Pairwise (fun a b : ℚ × ℚ => a.2 ≤ b.2) ((k1, v1) :: l) →
    k1 ≤ h →
    v1 ≤ multLoop ((k1, v1) :: l) h := by
  induction l with
  | nil =>
      rintro k1 v1 h ⟨p, hp, -⟩ _ _ _
      exact absurd hp (List.not_mem_nil p)
  | cons q rest ih =>
      rcases q with ⟨k2, v2⟩
      rintro k1 v1 h hex hk hv hk1
      have hk12 : k1 < k2 :=
        (List.pairwise_cons.mp hk).1 (k2, v2) (List.mem_cons_self _ _)
      have hv12 : v1 ≤ v2 :=
        (List.pairwise_cons.mp hv).1 (k2, v2) (List.mem_cons_self _ _)
      simp only [multLoop]
      by_cases hc : k1 ≤ h ∧ h ≤ k2
      · rw [if_pos hc]
        have ht : 0 ≤ (h - k1) / (k2 - k1) :=
          div_nonneg (by linarith) (by linarith)
        nlinarith [mul_nonneg ht (by linarith : (0:ℚ) ≤ v2 - v1)]
      · rw [if_neg hc]
        have hk2h : k2 < h := by
          rcases not_and_or.mp hc with h' | h'
          · exact absurd hk1 h'
          · exact lt_of_not_le h'
        have hex' : ∃ p ∈ rest, h ≤ p.1 := by
          rcases hex with ⟨p, hp, hph⟩
          rcases List.mem_cons.mp hp with rfl | hp'
          · exact absurd hph (not_le.mpr hk2h)
          · exact ⟨p, hp', hph⟩
        have := ih k2 v2 h hex' (List.pairwise_cons.mp hk).2
          (List.pairwise_cons.mp hv).2 hk2h.le
        linarith

theorem multLoop_ub (l : List (ℚ × ℚ)) :
    ∀ (k1 v1 h V : ℚ),
    (∃ p ∈ l, h ≤ p.1) →
    List.Pairwise (fun a b : ℚ × ℚ => a.1 < b.1) ((k1, v1) :: l) →
    List.Pairwise (fun a b : ℚ × ℚ => a.2 ≤ b.2) ((k1, v1) :: l) →
    (∀ p ∈ (k1, v1) :: l, p.2 ≤ V) →
    k1 ≤ h →
    multLoop ((k1, v1) :: l) h ≤ V := by
  induction l with
  | nil =>
      rintro k1 v1 h V ⟨p, hp, -⟩ _ _ _ _
      exact absurd hp (List.not_mem_nil p)
  | cons q rest ih =>
      rcases q with ⟨k2, v2⟩
      rintro k1 v1 h V hex hk hv hV hk1
      have hk12 : k1 < k2 :=
        (List.pairwise_cons.mp hk).1 (k2, v2) (List.mem_cons_self _ _)
      have hv12 : v1 ≤ v2 :=
        (List.pairwise_cons.mp hv).1 (k2, v2) (List.mem_cons_self _ _)
      have hv2V : v2 ≤ V := hV (k2, v2) (by simp)
      simp only [multLoop]
      by_cases hc : k1 ≤ h ∧ h ≤ k2
      · rw [if_pos hc]
        have ht : (h - k1) / (k2 - k1) ≤ 1 := by
          rw [div_le_one (by linarith)]
          linarith [hc.2]
        nlinarith [mul_le_mul_of_nonneg_right ht (by linarith : (0:ℚ) ≤ v2 - v1)]
      · rw [if_neg hc]
        have hk2h : k2 < h := by
          rcases not_and_or.mp hc with h' | h'
          · exact absurd hk1 h'
          · exact lt_of_not_le h'
        have hex' : ∃ p ∈ rest, h ≤ p.1 := by
          rcases hex with ⟨p, hp, hph⟩
          rcases List.mem_cons.mp hp with rfl | hp'
          · exact absurd hph (not_le.mpr hk2h)
          · exact ⟨p, hp', hph⟩
        exact ih k2 v2 h V hex' (List.pairwise_cons.mp hk).2
          (List.pairwise_cons.mp hv).2
          (fun p hp => hV p (List.mem_cons_of_mem _ hp)) hk2h.le

theorem multLoop_mono (l : List (ℚ × ℚ)) :
    ∀ (k1 v1 h1 h2 : ℚ),
    (∃ p ∈ l, h2 ≤ p.1) →
    List.Pairwise (fun a b : ℚ × ℚ => a.1 < b.1) ((k1, v1) :: l) →
    List.Pairwise (fun a b : ℚ × ℚ => a.2 ≤ b.2) ((k1, v1) :: l) →
    k1 ≤ h1 → h1 ≤ h2 →
    multLoop ((k1, v1) :: l) h1 ≤ multLoop ((k1, v1) :: l) h2 := by
  induction l with
  | nil =>
      rintro k1 v1 h1 h2 ⟨p, hp, -⟩ _ _ _ _
      exact absurd hp (List.not_mem_nil p)
  | cons q rest ih =>
      rcases q with ⟨k2, v2⟩
      rintro k1 v1 h1 h2 hex hk hv hk1 h12
      have hk12 : k1 < k2 :=
        (List.pairwise_cons.mp hk).1 (k2, v2) (List.mem_cons_self _ _)
      have hv12 : v1 ≤ v2 :=
        (List.pairwise_cons.mp hv).1 (k2, v2) (List.mem_cons_self _ _)
      simp only [multLoop]
      by_cases hc1 : k1 ≤ h1 ∧ h1 ≤ k2
      · rw [if_pos hc1]
        by_cases hc2 : k1 ≤ h2 ∧ h2 ≤ k2
        · rw [if_pos hc2]
          have ht : (h1 - k1) / (k2 - k1) ≤ (h2 - k1) / (k2 - k1) := by
            gcongr
            linarith
          nlinarith [mul_le_mul_of_nonneg_right ht (by linarith : (0:ℚ) ≤ v2 - v1)]
        · rw [if_neg hc2]
          have hk2h2 : k2 < h2 := by
            rcases not_and_or.mp hc2 with h' | h'
            · exact absurd (le_trans hk1 h12) h'
            · exact lt_of_not_le h'
          have hex' : ∃ p ∈ rest, h2 ≤ p.1 := by
            rcases hex with ⟨p, hp, hph⟩
            rcases List.mem_cons.mp hp with rfl | hp'
            · exact absurd hph (not_le.mpr hk2h2)
            · exact ⟨p, hp', hph⟩
          have hlb := multLoop_lb rest k2 v2 h2 hex' (List.pairwise_cons.mp hk).2
            (List.pairwise_cons.mp hv).2 hk2h2.le
          have ht : (h1 - k1) / (k2 - k1) ≤ 1 := by
            rw [div_le_one (by linarith)]
            linarith [hc1.2]
          nlinarith [mul_le_mul_of_nonneg_right ht (by linarith : (0:ℚ) ≤ v2 - v1)]
      · rw [if_neg hc1]
        have hk2h1 : k2 < h1 := by
          rcases not_and_or.mp hc1 with h' | h'
          · exact absurd hk1 h'
          · exact lt_of_not_le h'
        have hc2 : ¬(k1 ≤ h2 ∧ h2 ≤ k2) := by
          rintro ⟨-, hh⟩
          linarith
        rw [if_neg hc2]
        have hex' : ∃ p ∈ rest, h2 ≤ p.1 := by
          rcases hex with ⟨p, hp, hph⟩
          rcases List.mem_cons.mp hp with rfl | hp'
          · exact absurd hph (not_le.mpr (by linarith))
          · exact ⟨p, hp', hph⟩
        exact ih k2 v2 h1 h2 hex' (List.pairwise_cons.mp hk).2
          (List.pairwise_cons.mp hv).2 hk2h1.le h12

theorem hm_pairwise_keys :
    List.Pairwise (fun a b : ℚ × ℚ => a.1 < b.1) HANDICAP_MULTIPLIERS := by
  norm_num [HANDICAP_MULTIPLIERS, List.pairwise_cons]

theorem hm_pairwise_vals :
    List.Pairwise (fun a b : ℚ × ℚ => a.2 ≤ b.2) HANDICAP_MULTIPLIERS := by
  norm_num [HANDICAP_MULTIPLIERS, List.pairwise_cons]

theorem hm_vals_le : ∀ p ∈ HANDICAP_MULTIPLIERS, p.2 ≤ (1.70 : ℚ) := by
  simp only [HANDICAP_MULTIPLIERS, List.forall_mem_cons, List.not_mem_nil]
  norm_num

theorem handicap_multiplier_ge_one (h : Option ℚ) : 1 ≤ handicap_multiplier h := by
  simp only [handicap_multiplier]
  set x := max 0 (min 36 (h.getD 15)) with hx
  have hx0 : 0 ≤ x := le_max_left _ _
  have hx36 : x ≤ 36 := max_le (by norm_num) (min_le_left _ _)
  split_ifs with a1 a2
  · norm_num
  · norm_num
  · refine le_trans (by norm_num) (multLoop_lb _ 0 1.00 x
      ⟨(36, 1.70), by simp, by linarith [lt_of_not_le a2]⟩
      hm_pairwise_keys hm_pairwise_vals hx0)

theorem handicap_multiplier_mono (h1 h2 : ℚ) (hle : h1 ≤ h2) :
    handicap_multiplier (some h1) ≤ handicap_multiplier (some h2) := by
  simp only [handicap_multiplier, Option.getD_some]
  set x1 := max 0 (min 36 h1) with hx1
  set x2 := max 0 (min 36 h2) with hx2
  have hx12 : x1 ≤ x2 := max_le_max le_rfl (min_le_min le_rfl hle)
  have hx10 : 0 ≤ x1 := le_max_left _ _
  have hx20 : 0 ≤ x2 := le_max_left _ _
  have hx136 : x1 ≤ 36 := max_le (by norm_num) (min_le_left _ _)
  have hx236 : x2 ≤ 36 := max_le (by norm_num) (min_le_left _ _)
  by_cases a1 : x1 ≤ 0
  · rw [if_pos a1]
    by_cases b1 : x2 ≤ 0
    · rw [if_pos b1]
    · rw [if_neg b1]
      by_cases b2 : 36 ≤ x2
      · rw [if_pos b2]
        norm_num
      · rw [if_neg b2]
        exact multLoop_lb _ 0 1.00 x2
          ⟨(36, 1.70), by simp, by linarith [lt_of_not_le b2]⟩
          hm_pairwise_keys hm_pairwise_vals hx20
  · rw [if_neg a1]
    by_cases a2 : 36 ≤ x1
    · rw [if_pos a2]
      have b2 : 36 ≤ x2 := le_trans a2 hx12
      rw [if_neg (by linarith : ¬x2 ≤ 0), if_pos b2]
    · rw [if_neg a2]
      by_cases b1 : x2 ≤ 0
      · exact absurd (le_trans hx12 b1) a1
      · rw [if_neg b1]
        by_cases b2 : 36 ≤ x2
        · rw [if_pos b2]
          exact multLoop_ub _ 0 1.00 x1 1.70
            ⟨(36, 1.70), by simp, by linarith [lt_of_not_le a2]⟩
            hm_pairwise_keys hm_pairwise_vals hm_vals_le hx10
        · rw [if_neg b2]
          exact multLoop_mono _ 0 1.00 x1 x2
            ⟨(36, 1.70), by simp, by linarith [lt_of_not_le b2]⟩
            hm_pairwise_keys hm_pairwise_vals hx10 hx12

/-- C6: the expected-strokes handicap multiplier is monotone nondecreasing in
the handicap (with inputs clamped to [0, 36]), at least 1 everywhere, and
exactly the table value 1.00 at handicap 0. -/
theorem c6_handicap_multiplier :
    (∀ h1 h2 : ℚ, h1 ≤ h2 →
      handicap_multiplier (some h1) ≤ handicap_multiplier (some h2)) ∧
    (∀ h : Option ℚ, 1 ≤ handicap_multiplier h) ∧
    handicap_multiplier (some 0) = 1.00 := by
  refine ⟨handicap_multiplier_mono, handicap_multiplier_ge_one, ?_⟩
  simp only [handicap_multiplier, Option.getD_some]
  rw [if_pos (by norm_num : max 0 (min 36 (0 : ℚ)) ≤ 0)]

/-- C6 witness: monotonicity instantiated at handicaps 3 ≤ 27. -/
theorem c6_witness :
    (3 : ℚ) ≤ 27 ∧
    handicap_multiplier (some 3) ≤ handicap_multiplier (some 27) :=
  ⟨by norm_num, c6_handicap_multiplier.1 3 27 (by norm_num)⟩

/-! ### C10 — strokes gained at distance zero -/

/-- At distance 0 every lie table clamps to its nearest (last) entry, so
`expected_strokes` returns that entry's value times the handicap multiplier. -/
theorem expected_strokes_zero (lie : String) (hcp : Option ℚ) :
    expected_strokes 0 lie hcp =
      ((tableForLie lie).getLast?.map (fun p => p.2)).getD 3 *
        handicap_multiplier hcp := by
  rw [expected_strokes, tableForLie]
  split_ifs <;> rfl

/-- C10: the after-shot expectation is zero only for `end_distance = 0` with
the exact lie string "hole"; any other end state is scored by the table, and
at distance 0 that table value is the clamped last entry times the handicap
multiplier, which is strictly positive — so a holed ball reported as lie
"green" (1.02 base) or "fairway" (2.47 base) is scored as if still away. -/
theorem c10_strokes_gained :
    (∀ (strokes : ℤ) (sd : ℚ) (sl : String) (d : ℚ) (lie : String)
      (hcp : Option ℚ),
      ¬(d = 0 ∧ lie = "hole") →
      strokes_gained strokes sd sl d lie hcp =
        expected_strokes sd sl hcp - expected_strokes d lie hcp - strokes) ∧
    (∀ (lie : String) (hcp : Option ℚ),
      expected_strokes 0 lie hcp =
        ((tableForLie lie).getLast?.map (fun p => p.2)).getD 3 *
          handicap_multiplier hcp ∧
      0 < expected_strokes 0 lie hcp) ∧
    (∀ hcp : Option ℚ,
      expected_strokes 0 "green" hcp = 1.02 * handicap_multiplier hcp ∧
      expected_strokes 0 "fairway" hcp = 2.47 * handicap_multiplier hcp) := by
  refine ⟨?_, ?_, ?_⟩
  · intro strokes sd sl d lie hcp h
    rw [strokes_gained, if_neg h]
  · intro lie hcp
    have hm : 0 < handicap_multiplier hcp :=
      lt_of_lt_of_le one_pos (handicap_multiplier_ge_one hcp)
    refine ⟨expected_strokes_zero lie hcp, ?_⟩
    rw [expected_strokes, tableForLie]
    split_ifs
    · rw [show interpolate TEE_TABLE 0 = 2.85 from rfl]
      exact mul_pos (by norm_num) hm
    · rw [show interpolate FAIRWAY_TABLE 0 = 2.47 from rfl]
      exact mul_pos (by norm_num) hm
    · rw [show interpolate ROUGH_TABLE 0 = 2.63 from rfl]
      exact mul_pos (by norm_num) hm
    · rw [show interpolate SAND_TABLE 0 = 2.30 from rfl]
      exact mul_pos (by norm_num) hm
    · rw [show interpolate GREEN_TABLE 0 = 1.02 from rfl]
      exact mul_pos (by norm_num) hm
    · rw [show interpolate FAIRWAY_TABLE 0 = 2.47 from rfl]
      exact mul_pos (by norm_num) hm
  · intro hcp
    exact ⟨rfl, rfl⟩

/-- C10 witness: a holed ball reported on the green. -/
theorem c10_witness :
    ¬((0 : ℚ) = 0 ∧ ("green" : String) = "hole") ∧
    strokes_gained 1 100 "fairway" 0 "green" (some 15) =
      expected_strokes 100 "fairway" (some 15) -
        expected_strokes 0 "green" (some 15) - 1 :=
  ⟨by simp, c10_strokes_gained.1 1 100 "fairway" 0 "green" (some 15) (by simp)⟩

/-! ### C8 — tendency heuristics -/

/-- C8 counterexample: at the same handicap 15, doubles-per-round is 1.0 for
a round history containing one double bogey but 0.0 for one containing a par,
so it is not a function of the handicap alone; and the no-rounds default at
handicap 40 sets three-putts-per-round to 6.0, above the 5.0 cap the
with-rounds path enforces. -/
theorem c8_counterexample :
    (analyze_player_stats [doubleRound] (some 15)).tendencies.doubles_per_round = 1 ∧
    (analyze_player_stats [parRound] (some 15)).tendencies.doubles_per_round = 0 ∧
    (default_stats (some 40)).tendencies.three_putts_per_round = 6 ∧
    ¬(default_stats (some 40)).tendencies.three_putts_per_round ≤ 5 := by
  have h40 : (default_stats (some 40)).tendencies.three_putts_per_round = 6 := by
    norm_num [default_stats, pyOr15]
  refine ⟨?_, ?_, h40, by rw [h40]; norm_num⟩
  · simp [analyze_player_stats, allScores, doubleRound, roundHoleScores,
      parForHole, roundsAnalyzed]
    rw [pyRound1_eq_self _ 1 (by norm_num)]
    norm_num
  · simp [analyze_player_stats, allScores, parRound, roundHoleScores,
      parForHole, roundsAnalyzed]
    rw [pyRound1_eq_self _ 0 (by norm_num)]
    norm_num

/-- C8 (amended): three-putts-per-round is a handicap-only heuristic, clamped
to [0.5, 5.0] when round history yields scores and clamped only from below at
0.5 in the no-rounds default; doubles-per-round is handicap-scaled
(`max 0.5 (0.15·h)`) only in the default profile, while with round history it
is the observed doubles-or-worse count per analyzed round, rounded to one
decimal and not a function of the handicap. -/
theorem c8_tendencies_amended (rounds : List RoundRecord) (hcp : Option ℚ)
    (h2 : allScores rounds ≠ []) :
    ((analyze_player_stats rounds hcp).tendencies.three_putts_per_round =
        max 0.5 (min 5.0 (pyOr15 hcp * (15/100))) ∧
      0.5 ≤ (analyze_player_stats rounds hcp).tendencies.three_putts_per_round ∧
      (analyze_player_stats rounds hcp).tendencies.three_putts_per_round ≤ 5 ∧
      (analyze_player_stats rounds hcp).tendencies.doubles_per_round =
        pyRound1 ((((allScores rounds).filter
            (fun s => decide (s.par + 2 ≤ s.strokes))).length : ℚ) /
          ((max (roundsAnalyzed rounds) 1 : ℤ) : ℚ))) ∧
    (∀ h : Option ℚ,
      (default_stats h).tendencies.three_putts_per_round =
        max 0.5 (pyOr15 h * (15/100)) ∧
      0.5 ≤ (default_stats h).tendencies.three_putts_per_round ∧
      (default_stats h).tendencies.doubles_per_round =
        max 0.5 (pyOr15 h * (15/100))) := by
  have h1 : rounds ≠ [] := by
    rintro rfl
    exact h2 rfl
  constructor
  · simp only [analyze_player_stats]
    rw [if_neg h1, if_neg h2]
    refine ⟨rfl, le_max_left _ _, ?_, rfl⟩
    exact max_le (by norm_num) (le_trans (min_le_left _ _) (by norm_num))
  · intro h
    exact ⟨rfl, le_max_left _ _, rfl⟩

/-- C8 witness: the amended theorem instantiated on the one-double round. -/
theorem c8_witness :
    allScores [doubleRound] ≠ [] ∧
    (analyze_player_stats [doubleRound] (some 15)).tendencies.three_putts_per_round =
      max 0.5 (min 5.0 (pyOr15 (some 15) * (15/100))) :=
  ⟨by simp [allScores, doubleRound, roundHoleScores],
   (c8_tendencies_amended [doubleRound] (some 15)
     (by simp [allScores, doubleRound, roundHoleScores])).1.1⟩

/-! ### C7 — session TTL -/

/-- C7: a `get` more than 8 hours after the last access returns nothing and
evicts the session; a `get` within the window returns the session with its
timestamp refreshed to now and stores it back; `get_or_create` and `update`
likewise stamp the current time.  Sliding window: a session created at time 0,
read at 7 h 59 m (28740 s) and again one minute later (28800 s) is still
present, while a first read at 28801 s finds nothing and evicts. -/
theorem c7_session_ttl :
    (∀ (st : SessionMap) (now : ℚ) (rid : String) (s : RoundSession),
      st rid = some s →
        (SESSION_TTL_SECONDS < now - s.last_accessed →
          (SessionManager.get st now rid).1 = none ∧
          (SessionManager.get st now rid).2 rid = none) ∧
        (now - s.last_accessed ≤ SESSION_TTL_SECONDS →
          (SessionManager.get st now rid).1 =
            some { s with last_accessed := now } ∧
          (SessionManager.get st now rid).2 rid =
            some { s with last_accessed := now })) ∧
    (∀ (st : SessionMap) (now : ℚ) (rid : String) (cid : Option String),
      (SessionManager.get_or_create st now rid cid).1.last_accessed = now ∧
      (SessionManager.get_or_create st now rid cid).2 rid =
        some (SessionManager.get_or_create st now rid cid).1) ∧
    (∀ (st : SessionMap) (now : ℚ) (sess : RoundSession),
      (SessionManager.update st now sess) sess.round_id =
        some { sess with last_accessed := now }) ∧
    ((SessionManager.get oneSessionStore 28740 "r1").1 =
      some { round_id := "r1", course_id := none, created_at := 0,
             last_accessed := 28740 } ∧
     (SessionManager.get (SessionManager.get oneSessionStore 28740 "r1").2
        28800 "r1").1 =
      some { round_id := "r1", course_id := none, created_at := 0,
             last_accessed := 28800 } ∧
     (SessionManager.get oneSessionStore 28801 "r1").1 = none ∧
     (SessionManager.get oneSessionStore 28801 "r1").2 "r1" = none) := by
  refine ⟨?_, ?_, ?_, ?_, ?_, ?_, ?_⟩
  · intro st now rid s hs
    constructor
    · intro ht
      simp only [SessionManager.get, hs]
      rw [if_pos ht]
      simp
    · intro ht
      simp only [SessionManager.get, hs]
      rw [if_neg (not_lt.mpr ht)]
      simp
  · intro st now rid cid
    cases hst : st rid <;> simp [SessionManager.get_or_create, hst]
  · intro st now sess
    simp [SessionManager.update]
  · simp [SessionManager.get, oneSessionStore, SESSION_TTL_SECONDS]
    norm_num
  · simp [SessionManager.get, oneSessionStore, SESSION_TTL_SECONDS]
    norm_num
  · simp [SessionManager.get, oneSessionStore, SESSION_TTL_SECONDS]
    norm_num
  · simp [SessionManager.get, oneSessionStore, SESSION_TTL_SECONDS]
    norm_num

/-- C7 witness: a fresh read 100 seconds after last access stays present with
a refreshed timestamp. -/
theorem c7_witness :
    oneSessionStore "r1" =
      some { round_id := "r1", course_id := none, created_at := 0,
             last_accessed := 0 } ∧
    (100 : ℚ) - 0 ≤ SESSION_TTL_SECONDS ∧
    (SessionManager.get oneSessionStore 100 "r1").1 =
      some { round_id := "r1", course_id := none, created_at := 0,
             last_accessed := 100 } :=
  ⟨rfl, by norm_num [SESSION_TTL_SECONDS],
   ((c7_session_ttl.1 oneSessionStore 100 "r1"
      { round_id := "r1", course_id := none, created_at := 0,
        last_accessed := 0 } rfl).2
     (by norm_num [SESSION_TTL_SECONDS])).1⟩

/-! ### C5 — club selection -/

theorem sortClubsDesc_pairwise (clubs : List (String × ℤ)) :
    List.Pairwise (fun a b : String × ℤ => b.2 ≤ a.2) (sortClubsDesc clubs) := by
  have h := @List.sorted_mergeSort (String × ℤ)
    (fun a b => decide (b.2 ≤ a.2))
    (fun a b c hab hbc => by
      simp only [decide_eq_true_eq] at *
      omega)
    (fun a b => by
      simp only [Bool.or_eq_true, decide_eq_true_eq]
      omega)
    clubs
  rw [sortClubsDesc]
  exact h.imp (fun hab => by simpa using hab)

theorem sortClubsDesc_perm (clubs : List (String × ℤ)) :
    List.Perm (sortClubsDesc clubs) clubs :=
  List.mergeSort_perm clubs _

theorem pickClub_mem_or_dflt (l : List (String × ℤ)) :
    ∀ (w : ℤ) (d : String × ℤ), pickClub l w d = d ∨ pickClub l w d ∈ l := by
  induction l with
  | nil => intro w d; exact Or.inl rfl
  | cons c cs ih =>
      intro w d
      rw [pickClub]
      split_ifs with hc
      · exact Or.inr (List.mem_cons_self _ _)
      · rcases ih w d with h | h
        · exact Or.inl h
        · exact Or.inr (List.mem_cons_of_mem _ h)

theorem pickClub_qualifies (l : List (String × ℤ)) :
    ∀ (w : ℤ) (d : String × ℤ), (∃ c ∈ l, c.2 ≤ w + 8) →
    pickClub l w d ∈ l ∧ (pickClub l w d).2 ≤ w + 8 := by
  induction l with
  | nil =>
      rintro w d ⟨c, hc, -⟩
      exact absurd hc (List.not_mem_nil c)
  | cons c cs ih =>
      rintro w d hx
      rw [pickClub]
      split_ifs with hc
      · exact ⟨List.mem_cons_self _ _, hc⟩
      · have h' : ∃ x ∈ cs, x.2 ≤ w + 8 := by
          rcases hx with ⟨x, hxm, hxw⟩
          rcases List.mem_cons.mp hxm with rfl | hx'
          · exact absurd hxw hc
          · exact ⟨x, hx', hxw⟩
        obtain ⟨h1, h2⟩ := ih w d h'
        exact ⟨List.mem_cons_of_mem _ h1, h2⟩

theorem pickClub_is_max (l : List (String × ℤ)) :
    ∀ (w : ℤ) (d : String × ℤ),
    List.Pairwise (fun a b : String × ℤ => b.2 ≤ a.2) l →
    ∀ c ∈ l, c.2 ≤ w + 8 → c.2 ≤ (pickClub l w d).2 := by
  induction l with
  | nil =>
      intro w d _ c hc
      exact absurd hc (List.not_mem_nil c)
  | cons a cs ih =>
      intro w d hp c hc hcw
      rw [pickClub]
      split_ifs with ha
      · rcases List.mem_cons.mp hc with rfl | hc'
        · exact le_rfl
        · exact (List.pairwise_cons.mp hp).1 c hc'
      · rcases List.mem_cons.mp hc with rfl | hc'
        · exact absurd hcw ha
        · exact ih w d (List.pairwise_cons.mp hp).2 c hc' hcw

theorem pickClub_none (l : List (String × ℤ)) :
    ∀ (w : ℤ) (d : String × ℤ), (∀ c ∈ l, ¬c.2 ≤ w + 8) →
    pickClub l w d = d := by
  induction l with
  | nil => intro w d _; rfl
  | cons a cs ih =>
      intro w d h
      rw [pickClub, if_neg (h a (List.mem_cons_self _ _))]
      exact ih w d (fun c hc => h c (List.mem_cons_of_mem _ hc))

theorem pickClub_mono (l : List (String × ℤ)) :
    ∀ (w1 w2 : ℤ) (d : String × ℤ),
    List.Pairwise (fun a b : String × ℤ => b.2 ≤ a.2) l →
    (∀ c ∈ l, d.2 ≤ c.2) → w1 ≤ w2 →
    (pickClub l w1 d).2 ≤ (pickClub l w2 d).2 := by
  induction l with
  | nil => intro w1 w2 d _ _ _; exact le_rfl
  | cons a cs ih =>
      intro w1 w2 d hp hd h12
      rw [pickClub, pickClub]
      by_cases h1 : a.2 ≤ w1 + 8
      · rw [if_pos h1, if_pos (by omega)]
      · rw [if_neg h1]
        by_cases hw2 : a.2 ≤ w2 + 8
        · rw [if_pos hw2]
          rcases pickClub_mem_or_dflt cs w1 d with h | h
          · rw [h]
            exact hd a (List.mem_cons_self _ _)
          · exact (List.pairwise_cons.mp hp).1 _ h
        · rw [if_neg hw2]
          exact ih w1 w2 d (List.pairwise_cons.mp hp).2
            (fun c hc => hd c (List.mem_cons_of_mem _ hc)) h12

theorem getLast_min (l : List (String × ℤ)) :
    ∀ (hne : l ≠ []),
    List.Pairwise (fun a b : String × ℤ => b.2 ≤ a.2) l →
    ∀ c ∈ l, (l.getLast hne).2 ≤ c.2 := by
  induction l with
  | nil => intro hne; exact absurd rfl hne
  | cons a cs ih =>
      intro hne hp c hc
      by_cases hcs : cs = []
      · subst hcs
        rcases List.mem_singleton.mp hc with rfl
        simp [List.getLast]
      · rw [List.getLast_cons hcs]
        rcases List.mem_cons.mp hc with rfl | hc'
        · exact (List.pairwise_cons.mp hp).1 _ (List.getLast_mem hcs)
        · exact ih hcs (List.pairwise_cons.mp hp).2 c hc'

/-- C5: for every club table (empty tables fall back to the default set) and
every target, under each bias the selector returns a qualifying club of
maximal carry when one exists and the shortest club otherwise, and the
selected carry distance is monotone along aggressive → moderate →
conservative. -/
theorem c5_club_selection (table : List (String × ℤ)) (target : ℤ) :
    (∀ bias : String,
      ((∃ c ∈ effectiveClubs table, c.2 ≤ target + biasYards bias + 8) →
        select_club target table bias ∈ effectiveClubs table ∧
        (select_club target table bias).2 ≤ target + biasYards bias + 8 ∧
        ∀ c ∈ effectiveClubs table, c.2 ≤ target + biasYards bias + 8 →
          c.2 ≤ (select_club target table bias).2) ∧
      ((∀ c ∈ effectiveClubs table, ¬c.2 ≤ target + biasYards bias + 8) →
        select_club target table bias ∈ effectiveClubs table ∧
        ∀ c ∈ effectiveClubs table, (select_club target table bias).2 ≤ c.2)) ∧
    biasYards "conservative" = 5 ∧ biasYards "aggressive" = -5 ∧
    biasYards "moderate" = 0 ∧
    (select_club target table "aggressive").2 ≤
      (select_club target table "moderate").2 ∧
    (select_club target table "moderate").2 ≤
      (select_club target table "conservative").2 := by
  have hne : effectiveClubs table ≠ [] := by
    rw [effectiveClubs]
    split_ifs with h
    · simp [DEFAULT_CLUB_DISTANCES]
    · exact h
  have hsne : sortClubsDesc (effectiveClubs table) ≠ [] := by
    intro h0
    have hp := sortClubsDesc_perm (effectiveClubs table)
    rw [h0] at hp
    exact hne hp.symm.eq_nil
  obtain ⟨c, cs, hcs⟩ := List.exists_cons_of_ne_nil hsne
  have hpw := sortClubsDesc_pairwise (effectiveClubs table)
  have hperm := sortClubsDesc_perm (effectiveClubs table)
  rw [hcs] at hpw hperm
  have hsel : ∀ bias : String, select_club target table bias =
      pickClub (c :: cs) (target + biasYards bias)
        ((c :: cs).getLast (by simp)) := by
    intro bias
    simp only [select_club]
    rw [hcs]
  have hdmin : ∀ x ∈ c :: cs, ((c :: cs).getLast (by simp)).2 ≤ x.2 :=
    getLast_min (c :: cs) (by simp) hpw
  refine ⟨?_, rfl, rfl, rfl, ?_, ?_⟩
  · intro bias
    constructor
    · rintro ⟨x, hx, hxw⟩
      have hx' : x ∈ c :: cs := hperm.mem_iff.mpr hx
      obtain ⟨hm, hq⟩ := pickClub_qualifies (c :: cs) (target + biasYards bias)
        ((c :: cs).getLast (by simp)) ⟨x, hx', hxw⟩
      rw [hsel bias]
      refine ⟨hperm.mem_iff.mp hm, hq, ?_⟩
      intro y hy hyw
      exact pickClub_is_max (c :: cs) (target + biasYards bias)
        ((c :: cs).getLast (by simp)) hpw y (hperm.mem_iff.mpr hy) hyw
    · intro hall
      rw [hsel bias]
      have hall' : ∀ x ∈ c :: cs, ¬x.2 ≤ target + biasYards bias + 8 :=
        fun x hx => hall x (hperm.mem_iff.mp hx)
      rw [pickClub_none (c :: cs) (target + biasYards bias)
        ((c :: cs).getLast (by simp)) hall']
      refine ⟨hperm.mem_iff.mp (List.getLast_mem (by simp)), ?_⟩
      intro y hy
      exact hdmin y (hperm.mem_iff.mpr hy)
  · rw [hsel "aggressive", hsel "moderate"]
    exact pickClub_mono (c :: cs) (target + biasYards "aggressive")
      (target + biasYards "moderate") ((c :: cs).getLast (by simp)) hpw hdmin
      (by rw [show biasYards "aggressive" = -5 from rfl,
          show biasYards "moderate" = 0 from rfl]; omega)
  · rw [hsel "moderate", hsel "conservative"]
    exact pickClub_mono (c :: cs) (target + biasYards "moderate")
      (target + biasYards "conservative") ((c :: cs).getLast (by simp)) hpw hdmin
      (by rw [show biasYards "moderate" = 0 from rfl,
          show biasYards "conservative" = 5 from rfl]; omega)


/-- C5 witness: the default table at target 150 under the moderate bias. -/
theorem c5_witness :
    (∃ c ∈ effectiveClubs [], c.2 ≤ 150 + biasYards "moderate" + 8) ∧
    (select_club 150 [] "moderate" ∈ effectiveClubs [] ∧
     (select_club 150 [] "moderate").2 ≤ 150 + biasYards "moderate" + 8 ∧
     ∀ c ∈ effectiveClubs [], c.2 ≤ 150 + biasYards "moderate" + 8 →
       c.2 ≤ (select_club 150 [] "moderate").2) := by
  have hex : ∃ c ∈ effectiveClubs [], c.2 ≤ 150 + biasYards "moderate" + 8 := by
    refine ⟨("8iron", 150), ?_, ?_⟩
    · simp [effectiveClubs, DEFAULT_CLUB_DISTANCES]
    · rw [show biasYards "moderate" = 0 from rfl]
      omega
  exact ⟨hex, ((c5_club_selection [] 150).1 "moderate").1 hex⟩
